import Mathlib

/-!
Shallow embedding of the delivery rescheduling engine of the wartegonline
MCP repository (files warlon_client.py and warlon_mcp.py), together with
theorems about the engine.

Calendar dates are modelled as proleptic Gregorian ordinals, exactly as
Python computes them: ordinal 1 is 0001-01-01, a Monday, and
date.weekday() returns 0 for Monday up to 6 for Sunday.  Remote calls are
modelled by an oracle deciding whether each per-record update succeeds;
an uncaught Python exception is modelled as an Except.error result.
-/

namespace Warteg

/-- Python date.weekday of an ordinal day: 0 = Monday .. 6 = Sunday. -/
def weekday (d : Nat) : Nat := (d + 6) % 7

/-- The Sunday test used everywhere in the source: weekday() == 6. -/
def isSunday (d : Nat) : Bool := weekday d == 6

/-- Leap year rule of the Gregorian calendar (Python calendar.isleap). -/
def isLeapYear (y : Nat) : Bool := (y % 4 == 0 && y % 100 != 0) || (y % 400 == 0)

/-- Number of days in a month of a given year. -/
def daysInMonth (y m : Nat) : Nat :=
  if m == 2 then (if isLeapYear y then 29 else 28)
  else if m == 4 || m == 6 || m == 9 || m == 11 then 30
  else 31

/-- Days in the given year before the first day of month m. -/
def daysBeforeMonth (y m : Nat) : Nat :=
  (List.range (m - 1)).foldl (fun acc i => acc + daysInMonth y (i + 1)) 0

/-- Proleptic Gregorian ordinal of a calendar date, as Python
date.toordinal computes it (0001-01-01 has ordinal 1). -/
def toOrdinal (y m d : Nat) : Nat :=
  (y - 1) * 365 + (y - 1) / 4 - (y - 1) / 100 + (y - 1) / 400 + daysBeforeMonth y m + d

/-- The while loop `while t.weekday() == 6: t += 1` appearing in
bulk_reschedule and skip_day, written with a fuel bound.  Fuel 7 covers a
full week, and one increment already leaves Sunday, so the bound is never
reached. -/
def skipSundaysFuel : Nat → Nat → Nat
  | 0, d => d
  | fuel + 1, d => if isSunday d then skipSundaysFuel fuel (d + 1) else d

/-- Advance a date past Sunday: the semantics of the while loop. -/
def skipSundays (d : Nat) : Nat := skipSundaysFuel 7 d

/-- One scheduled meal delivery: the OrderGroup dataclass of
warlon_client.py.  scheduled_date is the Jakarta-local calendar date as a
Gregorian ordinal. -/
structure OrderGroup where
  id : Nat
  schedule_id : Nat
  scheduled_date : Nat
  order_type : String
  status : String
  address_id : Nat
  address : Option String
  notes : List String
deriving DecidableEq, Repr

/-- Editability is derived from the status field, as in the source. -/
def is_editable (g : OrderGroup) : Bool := g.status == "SCHEDULED"

/-- One remote update issued through WarlonClient.reschedule_order, with
the arguments the source passes.  notes defaults to the empty list when
the caller passes no notes. -/
structure RescheduleCall where
  group_id : Nat
  schedule_id : Nat
  new_date : Nat
  address_id : Nat
  order_type : String
  package_order_id : Nat
  notes : List String
deriving DecidableEq, Repr

/-- Python dict lookup on an insertion-ordered association list. -/
def alookup {α : Type} (l : List (Nat × α)) (k : Nat) : Option α :=
  match l with
  | [] => none
  | p :: rest => if p.1 == k then some p.2 else alookup rest k

/-- Comparison key of the Python sort `key=(g.scheduled_date, g.order_type)`:
strict lexicographic order on the pair, with Python string comparison on
the meal type. -/
def keyLT (a b : OrderGroup) : Bool :=
  decide (a.scheduled_date < b.scheduled_date) ||
    (decide (a.scheduled_date = b.scheduled_date) &&
      (compare a.order_type b.order_type == Ordering.lt))

/-- Non-strict version of keyLT, used to state sortedness hypotheses. -/
def keyLE (a b : OrderGroup) : Bool :=
  decide (a.scheduled_date < b.scheduled_date) ||
    (decide (a.scheduled_date = b.scheduled_date) &&
      !(compare a.order_type b.order_type == Ordering.gt))

/-- A list sorted ascending by (date, mealType), the postcondition of the
Python stable sort. -/
abbrev sortedByDateType (gs : List OrderGroup) : Prop :=
  gs.Pairwise (fun a b => keyLE a b = true)

/-- Stable insertion used to model the Python list sort. -/
def insertGroup (g : OrderGroup) : List OrderGroup → List OrderGroup
  | [] => [g]
  | h :: t => if keyLT h g then h :: insertGroup g t else g :: h :: t

/-- Stable sort by (scheduled_date, order_type), modelling
`groups.sort(key=lambda g: (g.scheduled_date, g.order_type))`. -/
def sortGroups : List OrderGroup → List OrderGroup
  | [] => []
  | h :: t => insertGroup h (sortGroups t)

/-- Aggregate returned by WarlonClient.bulk_reschedule: counts plus the
rescheduled (group_id, old_date, new_date) triples and the failed
(group_id, error message) pairs. -/
structure BulkResults where
  success_count : Nat
  failed_count : Nat
  rescheduled : List (Nat × Nat × Nat)
  failed : List (Nat × String)
deriving DecidableEq, Repr

/-- Initial results dictionary of bulk_reschedule. -/
def emptyResults : BulkResults := ⟨0, 0, [], []⟩

/-- The per-record loop of WarlonClient.bulk_reschedule.  State: the
current_target cursor and the insertion-ordered day_mapping from source
date to target date.  For each record, if its date has no mapping yet the
cursor is advanced past Sunday, recorded as target, and incremented; the
record is then updated to its mapped date, success or failure being
decided by the oracle ok.  Returns the final results and day_mapping. -/
def bulk_loop (ok : OrderGroup → Bool) :
    List OrderGroup → Nat → List (Nat × Nat) → BulkResults → BulkResults × List (Nat × Nat)
  | [], _, day_mapping, results => (results, day_mapping)
  | g :: gs, current_target, day_mapping, results =>
    match alookup day_mapping g.scheduled_date with
    | some new_date =>
      if ok g then
        bulk_loop ok gs current_target day_mapping
          { results with
            success_count := results.success_count + 1,
            rescheduled := results.rescheduled ++ [(g.id, g.scheduled_date, new_date)] }
      else
        bulk_loop ok gs current_target day_mapping
          { results with
            failed_count := results.failed_count + 1,
            failed := results.failed ++ [(g.id, "Reschedule failed")] }
    | none =>
      let t := skipSundays current_target
      let dm := day_mapping ++ [(g.scheduled_date, t)]
      if ok g then
        bulk_loop ok gs (t + 1) dm
          { results with
            success_count := results.success_count + 1,
            rescheduled := results.rescheduled ++ [(g.id, g.scheduled_date, t)] }
      else
        bulk_loop ok gs (t + 1) dm
          { results with
            failed_count := results.failed_count + 1,
            failed := results.failed ++ [(g.id, "Reschedule failed")] }

/-- WarlonClient.bulk_reschedule: default the type filter, select the
editable records in the inclusive date range with a matching type, sort
by (date, type), then run the remapping loop from the target start
date. -/
def bulk_reschedule (ok : OrderGroup → Bool) (groups : List OrderGroup)
    (start_date end_date target_start_date : Nat)
    (order_types : Option (List String)) : BulkResults × List (Nat × Nat) :=
  let types := order_types.getD ["LUNCH", "DINNER"]
  let selected := groups.filter (fun g =>
    decide (start_date ≤ g.scheduled_date) && decide (g.scheduled_date ≤ end_date) &&
      types.contains g.order_type && is_editable g)
  bulk_loop ok (sortGroups selected) target_start_date [] emptyResults

/-- Sample editable lunch delivery on 2024-01-06 (Saturday). -/
def sampleG1 : OrderGroup := ⟨1, 10, toOrdinal 2024 1 6, "LUNCH", "SCHEDULED", 5, none, []⟩

/-- Sample editable lunch delivery on 2024-01-08 (Monday). -/
def sampleG2 : OrderGroup := ⟨2, 10, toOrdinal 2024 1 8, "LUNCH", "SCHEDULED", 5, none, []⟩

/-- An entry of the skipped list returned by the skip_day tool.
from_date is the raw skip_date string, exactly as the source reports
it. -/
structure SkippedEntry where
  group_id : Nat
  type : String
  from_date : String
  to_date : Nat
deriving DecidableEq, Repr

/-- Result dictionary of the skip_day tool. -/
structure SkipResult where
  success : Bool
  message : String
  skipped : List SkippedEntry
deriving DecidableEq, Repr

/-- Python max over a list; none models the ValueError max raises on an
empty sequence. -/
def listMax : List Nat → Option Nat
  | [] => none
  | x :: xs => some (xs.foldl Nat.max x)

/-- Optional meal-type filter: no filter accepts every type. -/
def matchesTypes (types_list : Option (List String)) (t : String) : Bool :=
  match types_list with
  | none => true
  | some l => l.contains t

/-- The record selection of skip_day: editable records on the skip date
passing the optional type filter. -/
def skipQualifying (groups : List OrderGroup) (skip_dt : Nat)
    (types_list : Option (List String)) : List OrderGroup :=
  groups.filter (fun g => decide (g.scheduled_date = skip_dt) && is_editable g &&
    matchesTypes types_list g.order_type)

/-- The per-record loop of skip_day: each record is attempted on the
current target date; on success the entry is recorded and the cursor
advances one day and past Sunday; on failure the cursor stays where it
is.  Returns the skipped entries and the trace of attempted
(record, target date) remote updates. -/
def skip_loop (ok : OrderGroup → Bool) :
    List OrderGroup → String → Nat → List SkippedEntry × List (OrderGroup × Nat)
  | [], _, _ => ([], [])
  | g :: gs, skip_date, target_date =>
    if ok g then
      let rest := skip_loop ok gs skip_date (skipSundays (target_date + 1))
      (⟨g.id, g.order_type, skip_date, target_date⟩ :: rest.1, (g, target_date) :: rest.2)
    else
      let rest := skip_loop ok gs skip_date target_date
      (rest.1, (g, target_date) :: rest.2)

/-- The skip_day tool of warlon_mcp.py.  parsed_skip_date is the outcome
of strptime on the raw skip_date string (none when strptime raises
ValueError); an Except.error result models an uncaught Python exception
crossing the tool boundary, since skip_day installs no handler.  The
second component is the list of remote updates attempted. -/
def skip_day (ok : OrderGroup → Bool) (authed : Bool) (groups : List OrderGroup)
    (parsed_skip_date : Option Nat) (skip_date : String)
    (types_list : Option (List String)) :
    Except String SkipResult × List (OrderGroup × Nat) :=
  match parsed_skip_date with
  | none => (Except.error "ValueError: time data does not match format Y-m-d", [])
  | some skip_dt =>
    if authed = false then
      (Except.error "RuntimeError: Not authenticated. Call login() first.", [])
    else
      match listMax (groups.map (fun g => g.scheduled_date)) with
      | none => (Except.error "ValueError: max() arg is an empty sequence", [])
      | some last_date =>
        let to_skip := skipQualifying groups skip_dt types_list
        if to_skip.isEmpty then
          (Except.ok ⟨false, "No editable deliveries found on " ++ skip_date, []⟩, [])
        else
          let r := skip_loop ok to_skip skip_date (skipSundays (last_date + 1))
          (Except.ok ⟨true, "Skipped " ++ toString r.1.length ++ " deliveries from "
            ++ skip_date, r.1⟩, r.2)

/-- Sample editable dinner delivery on 2024-01-06 (Saturday). -/
def sampleG3 : OrderGroup := ⟨3, 10, toOrdinal 2024 1 6, "DINNER", "SCHEDULED", 5, none, []⟩

/-- Summary string built by the bulk_reschedule tool from the client
results. -/
def formatBulk (r : BulkResults) : String :=
  let base := "Bulk Reschedule Results: Successful " ++ toString r.success_count
    ++ ", Failed " ++ toString r.failed_count
  r.rescheduled.foldl (fun acc e => acc ++ " ID " ++ toString e.1 ++ ": "
    ++ toString e.2.1 ++ " to " ++ toString e.2.2) base

/-- Type-token validation loop of the bulk_reschedule tool: the first
token that is neither LUNCH nor DINNER, if any. -/
def findInvalidType (types_list : List String) : Option String :=
  types_list.find? (fun t => !(["LUNCH", "DINNER"].contains t))

/-- The client call step of the bulk_reschedule tool.  The client method
raises RuntimeError when the session is unauthenticated; the tool's
catch-all handler turns that into an Error message, so the result is
always Except.ok.  The second component is the client bulk outcome when
the call was made. -/
def bulk_tool_call (ok : OrderGroup → Bool) (authed : Bool) (groups : List OrderGroup)
    (s e t : Nat) (tl : Option (List String)) :
    Except String String × Option (BulkResults × List (Nat × Nat)) :=
  if authed then
    (Except.ok (formatBulk (bulk_reschedule ok groups s e t tl).1),
      some (bulk_reschedule ok groups s e t tl))
  else (Except.ok "Error: Not authenticated. Call login() first.", none)

/-- The bulk_reschedule tool of warlon_mcp.py.  The parsed dates are the
strptime outcomes of the three raw date strings (none when strptime
raises ValueError, which the tool catches).  A Sunday target start date
is rejected before the client is ever called. -/
def bulk_reschedule_tool (ok : OrderGroup → Bool) (authed : Bool)
    (groups : List OrderGroup) (pstart pend ptarget : Option Nat)
    (target_start_date : String) (order_types : Option (List String)) :
    Except String String × Option (BulkResults × List (Nat × Nat)) :=
  match pstart, pend, ptarget with
  | some s, some e, some t =>
    if isSunday t then
      (Except.ok ("Cannot start rescheduling on Sunday (" ++ target_start_date ++ ")."),
        none)
    else
      match order_types with
      | some tl =>
        match findInvalidType tl with
        | some bad =>
          (Except.ok ("Invalid order type: " ++ bad ++ ". Must be LUNCH or DINNER"), none)
        | none => bulk_tool_call ok authed groups s e t (some tl)
      | none => bulk_tool_call ok authed groups s e t none
  | _, _, _ => (Except.ok "Invalid date format. Use YYYY-MM-DD.", none)

/-- Result dictionary of the hold_deliveries tool. -/
structure HoldResult where
  success : Bool
  hold_period : String
  resume_date : Nat
  deliveries_held : Nat
  failed : Nat
deriving DecidableEq, Repr

/-- The hold_deliveries tool of warlon_mcp.py: the anchor is fixed to the
day after the held range end and passed straight to the client bulk
reschedule.  There is no Sunday check and no exception handler, so
strptime failures and the unauthenticated RuntimeError escape as
Except.error. -/
def hold_deliveries (ok : OrderGroup → Bool) (authed : Bool) (groups : List OrderGroup)
    (pstart pend : Option Nat) (hold_start hold_end : String)
    (order_types : Option (List String)) : Except String HoldResult :=
  match pstart, pend with
  | some s, some e =>
    if authed = false then
      Except.error "RuntimeError: Not authenticated. Call login() first."
    else
      Except.ok ⟨decide (0 < (bulk_reschedule ok groups s e (e + 1) order_types).1.success_count),
        hold_start ++ " to " ++ hold_end, e + 1,
        (bulk_reschedule ok groups s e (e + 1) order_types).1.success_count,
        (bulk_reschedule ok groups s e (e + 1) order_types).1.failed_count⟩
  | _, _ => Except.error "ValueError: time data does not match format Y-m-d"

/-- Whether an Except result is a normal return (no exception escaped). -/
def isOkE {α : Type} : Except String α → Bool
  | Except.ok _ => true
  | Except.error _ => false

/-- The reschedule_delivery tool of warlon_mcp.py.  parsed_new_date is
the strptime outcome of the raw new_date string; the body is wrapped in
catch-all handlers, so the first component is always Except.ok.  The
second component lists the remote updates issued through
reschedule_order. -/
def reschedule_delivery_tool (ok : Bool) (authed : Bool) (groups : List OrderGroup)
    (order_id group_id : Nat) (parsed_new_date : Option Nat) (new_date : String)
    (address_id : Nat) (order_type : String) :
    Except String String × List RescheduleCall :=
  match parsed_new_date with
  | none => (Except.ok "Invalid date format. Use YYYY-MM-DD.", [])
  | some nd =>
    if isSunday nd then
      (Except.ok ("Cannot schedule delivery on Sunday (" ++ new_date
        ++ "). Please choose a different date."), [])
    else if !(["LUNCH", "DINNER"].contains order_type) then
      (Except.ok "order_type must be either LUNCH or DINNER", [])
    else if authed = false then
      (Except.ok "Error: Not authenticated. Call login() first.", [])
    else
      match groups.find? (fun g => g.id == group_id) with
      | none =>
        (Except.ok ("Group " ++ toString group_id ++ " not found in order "
          ++ toString order_id), [])
      | some tg =>
        if ok then
          (Except.ok ("Successfully rescheduled delivery " ++ toString group_id
            ++ " to " ++ new_date),
            [⟨group_id, tg.schedule_id, nd, address_id, order_type, order_id, []⟩])
        else
          (Except.ok ("Failed to reschedule delivery " ++ toString group_id),
            [⟨group_id, tg.schedule_id, nd, address_id, order_type, order_id, []⟩])

/-- An entry of the changed list returned by change_address. -/
structure ChangedEntry where
  group_id : Nat
  date : Nat
  type : String
  new_address_id : Nat
deriving DecidableEq, Repr

/-- Result dictionary of the change_address tool. -/
structure ChangeResult where
  success : Bool
  message : String
  changed : List ChangedEntry
deriving DecidableEq, Repr

/-- WarlonClient.get_orders_by_date_range: records in the inclusive
range, sorted by (date, type). -/
def get_orders_by_date_range (groups : List OrderGroup) (s e : Nat) :
    List OrderGroup :=
  sortGroups (groups.filter (fun g =>
    decide (s ≤ g.scheduled_date) && decide (g.scheduled_date ≤ e)))

/-- The per-record loop of change_address: non-editable records are
skipped entirely; each editable record is updated to its own unchanged
date and meal type with the new address id (and the default empty
notes); successes are recorded. -/
def change_address_loop (ok : OrderGroup → Bool) (order_id new_address_id : Nat) :
    List OrderGroup → List ChangedEntry × List RescheduleCall
  | [] => ([], [])
  | g :: gs =>
    let rest := change_address_loop ok order_id new_address_id gs
    if is_editable g = false then rest
    else if ok g then
      (⟨g.id, g.scheduled_date, g.order_type, new_address_id⟩ :: rest.1,
        ⟨g.id, g.schedule_id, g.scheduled_date, new_address_id, g.order_type,
          order_id, []⟩ :: rest.2)
    else
      (rest.1,
        ⟨g.id, g.schedule_id, g.scheduled_date, new_address_id, g.order_type,
          order_id, []⟩ :: rest.2)

/-- Body of change_address once the date range is resolved. -/
def change_address_range (ok : OrderGroup → Bool) (authed : Bool)
    (groups : List OrderGroup) (order_id new_address_id : Nat) (s e : Nat)
    (types_arg : Option (List String)) :
    Except String ChangeResult × List RescheduleCall :=
  if authed = false then
    (Except.error "RuntimeError: Not authenticated. Call login() first.", [])
  else
    let gs1 := match types_arg with
      | none => get_orders_by_date_range groups s e
      | some tlist =>
        (get_orders_by_date_range groups s e).filter (fun g => tlist.contains g.order_type)
    if gs1.isEmpty then
      (Except.ok ⟨false, "No deliveries found in the specified range", []⟩, [])
    else
      let r := change_address_loop ok order_id new_address_id gs1
      (Except.ok ⟨decide (0 < r.1.length), "Changed address for "
        ++ toString r.1.length ++ " deliveries", r.1⟩, r.2)

/-- The change_address tool of warlon_mcp.py.  For each of the three
date parameters, none means the parameter was not supplied, some none
that it was supplied but strptime raises (uncaught, hence the error
result), and some (some d) the parsed date. -/
def change_address_tool (ok : OrderGroup → Bool) (authed : Bool)
    (groups : List OrderGroup) (order_id new_address_id : Nat)
    (date_arg start_arg end_arg : Option (Option Nat))
    (types_arg : Option (List String)) :
    Except String ChangeResult × List RescheduleCall :=
  match date_arg with
  | some none => (Except.error "ValueError: time data does not match format Y-m-d", [])
  | some (some d) =>
    change_address_range ok authed groups order_id new_address_id d d types_arg
  | none =>
    match start_arg, end_arg with
    | some ps, some pe =>
      match ps, pe with
      | some s, some e =>
        change_address_range ok authed groups order_id new_address_id s e types_arg
      | _, _ => (Except.error "ValueError: time data does not match format Y-m-d", [])
    | _, _ =>
      (Except.ok ⟨false, "Provide either date or both start_date and end_date", []⟩, [])

/-- The get_package_orders tool: the client method raises RuntimeError
when the session is unauthenticated (warlon_client.py) and the tool has
no handler, so the exception escapes. -/
def get_package_orders_tool (authed : Bool) (orders : List (Nat × String)) :
    Except String (List (Nat × String)) :=
  if authed then Except.ok orders
  else Except.error "RuntimeError: Not authenticated. Call login() first."

/-- A remote-session handle (one WarlonClient instance): an identity and
the _is_authenticated flag. -/
structure ClientHandle where
  hid : Nat
  is_authenticated : Bool
deriving DecidableEq, Repr

/-- The process-wide _clients cache, with a counter supplying fresh
handle identities. -/
structure ClientCache where
  next_handle : Nat
  entries : List (Nat × ClientHandle)
deriving DecidableEq, Repr

/-- Credentials resolved from session configuration or environment. -/
structure Credentials where
  username : String
  password : String
deriving DecidableEq, Repr

/-- get_client of warlon_mcp.py: on a cache miss a fresh unauthenticated
handle is constructed and, when credentials are available, one auto
login is attempted whose outcome login_ok sets the authenticated flag;
the handle is cached whatever that outcome was.  On a hit the cached
handle is returned and the cache is unchanged. -/
def get_client (login_ok : Bool) (creds : Option Credentials) (session_id : Nat)
    (cache : ClientCache) : ClientHandle × ClientCache :=
  match alookup cache.entries session_id with
  | some h => (h, cache)
  | none =>
    let h := match creds with
      | some _ => ⟨cache.next_handle, login_ok⟩
      | none => (⟨cache.next_handle, false⟩ : ClientHandle)
    (h, ⟨cache.next_handle + 1, cache.entries ++ [(session_id, h)]⟩)

/-- In-place mutation of the cached handle performed by client.login:
the flag of the handle stored under the key is updated. -/
def set_auth (entries : List (Nat × ClientHandle)) (k : Nat) (b : Bool) :
    List (Nat × ClientHandle) :=
  entries.map (fun p => if p.1 == k then (p.1, ⟨p.2.hid, b⟩) else p)

/-- The login tool: resolves the session handle through get_client and
attempts one explicit login on it; success sets _is_authenticated on the
cached handle, failure leaves it untouched. -/
def login_tool (explicit_ok auto_ok : Bool) (creds : Option Credentials)
    (session_id : Nat) (cache : ClientCache) : String × ClientCache :=
  if explicit_ok then
    ("Successfully logged in",
      ⟨(get_client auto_ok creds session_id cache).2.next_handle,
        set_auth (get_client auto_ok creds session_id cache).2.entries session_id true⟩)
  else ("Login failed. Please check your credentials.",
    (get_client auto_ok creds session_id cache).2)

theorem isSunday_iff (d : Nat) : isSunday d = true ↔ d % 7 = 0 := by
  simp only [isSunday, weekday, beq_iff_eq]
  omega

theorem not_isSunday_succ (d : Nat) (h : isSunday d = true) : isSunday (d + 1) = false := by
  rw [isSunday_iff] at h
  simp only [isSunday, weekday, beq_eq_false_iff_ne, ne_eq]
  omega

/-- Closed form of the Sunday-skipping loop: at most one step is taken. -/
theorem skipSundays_eq (d : Nat) : skipSundays d = if isSunday d then d + 1 else d := by
  by_cases h : isSunday d = true
  · have h1 := not_isSunday_succ d h
    simp [skipSundays, skipSundaysFuel, h, h1]
  · simp only [Bool.not_eq_true] at h
    simp [skipSundays, skipSundaysFuel, h]

theorem skipSundays_not_sunday (d : Nat) : isSunday (skipSundays d) = false := by
  rw [skipSundays_eq]
  by_cases h : isSunday d = true
  · simp [h, not_isSunday_succ d h]
  · simp only [Bool.not_eq_true] at h
    simp [h]

theorem le_skipSundays (d : Nat) : d ≤ skipSundays d := by
  rw [skipSundays_eq]
  by_cases h : isSunday d = true <;> simp [h]

/-- Minimality: skipSundays d is the first non-Sunday day at or after d. -/
theorem skipSundays_min (d e : Nat) (hde : d ≤ e) (he : isSunday e = false) :
    skipSundays d ≤ e := by
  rw [skipSundays_eq]
  by_cases h : isSunday d = true
  · simp only [h, if_true]
    rcases Nat.eq_or_lt_of_le hde with rfl | hlt
    · rw [h] at he; cases he
    · omega
  · simp only [h, if_false]
    simpa using hde

theorem alookup_append_of_some {α : Type} (l l2 : List (Nat × α)) (k : Nat) (v : α)
    (h : alookup l k = some v) : alookup (l ++ l2) k = some v := by
  induction l with
  | nil => simp [alookup] at h
  | cons p rest ih =>
    simp only [alookup] at h ⊢
    by_cases hk : (p.1 == k) = true
    · simpa [hk] using h
    · simp only [hk] at h ⊢
      simp only [Bool.false_eq_true, if_false]
      exact ih h

theorem alookup_append_self {α : Type} (l : List (Nat × α)) (k : Nat) (v : α)
    (h : alookup l k = none) : alookup (l ++ [(k, v)]) k = some v := by
  induction l with
  | nil => simp [alookup]
  | cons p rest ih =>
    simp only [alookup] at h ⊢
    by_cases hk : (p.1 == k) = true
    · simp [hk] at h
    · simp only [hk, Bool.false_eq_true, if_false] at h ⊢
      exact ih h

theorem alookup_none_not_key {α : Type} (l : List (Nat × α)) (k : Nat)
    (h : alookup l k = none) : ∀ p ∈ l, p.1 ≠ k := by
  induction l with
  | nil => intro p hp; cases hp
  | cons q rest ih =>
    intro p hp
    simp only [alookup] at h
    by_cases hk : (q.1 == k) = true
    · simp [hk] at h
    · rcases List.mem_cons.mp hp with rfl | hp
      · simpa using hk
      · exact ih (by simpa [hk] using h) p hp

theorem alookup_mem {α : Type} (l : List (Nat × α)) (k : Nat) (v : α)
    (h : alookup l k = some v) : (k, v) ∈ l := by
  induction l with
  | nil => simp [alookup] at h
  | cons p rest ih =>
    simp only [alookup] at h
    by_cases hk : (p.1 == k) = true
    · simp only [hk, if_true, Option.some_inj] at h
      have : p = (k, v) := by
        rcases p with ⟨a, b⟩
        simp only at h
        simp only [beq_iff_eq] at hk
        simp [hk, h]
      simp [this]
    · simp only [hk, Bool.false_eq_true, if_false] at h
      exact List.mem_cons_of_mem _ (ih h)

theorem keyLE_date {a b : OrderGroup} (h : keyLE a b = true) :
    a.scheduled_date ≤ b.scheduled_date := by
  simp only [keyLE, Bool.or_eq_true, Bool.and_eq_true, decide_eq_true_eq] at h
  rcases h with h | ⟨h, _⟩
  · exact Nat.le_of_lt h
  · exact Nat.le_of_eq h

theorem mem_insertGroup (a g : OrderGroup) (l : List OrderGroup) :
    a ∈ insertGroup g l ↔ a = g ∨ a ∈ l := by
  induction l with
  | nil => simp [insertGroup]
  | cons h t ih =>
    simp only [insertGroup]
    by_cases hk : keyLT h g = true
    · simp only [hk, if_true, List.mem_cons, ih]
      tauto
    · simp only [hk, Bool.false_eq_true, if_false, List.mem_cons]
      try tauto

theorem mem_sortGroups (a : OrderGroup) (l : List OrderGroup) :
    a ∈ sortGroups l ↔ a ∈ l := by
  induction l with
  | nil => simp [sortGroups]
  | cons h t ih => simp [sortGroups, mem_insertGroup, ih]

/-- Every rescheduled entry records exactly the value the day_mapping
assigns to its source date, and later insertions never change it. -/
theorem bulk_loop_lookup (ok : OrderGroup → Bool) :
    ∀ (gs : List OrderGroup) (c : Nat) (dm : List (Nat × Nat)) (res : BulkResults),
    (∀ e ∈ res.rescheduled, alookup dm e.2.1 = some e.2.2) →
    ∀ e ∈ (bulk_loop ok gs c dm res).1.rescheduled,
      alookup (bulk_loop ok gs c dm res).2 e.2.1 = some e.2.2 := by
  intro gs
  induction gs with
  | nil => intro c dm res h; simpa [bulk_loop] using h
  | cons g gs ih =>
    intro c dm res h
    simp only [bulk_loop]
    cases halk : alookup dm g.scheduled_date with
    | some nd =>
      by_cases hok : ok g = true
      · simp only [halk, hok, if_true]
        apply ih
        intro e he
        rcases List.mem_append.mp he with he | he
        · exact h e he
        · simp only [List.mem_singleton] at he
          subst he
          exact halk
      · simp only [halk, hok, Bool.false_eq_true, if_false]
        apply ih
        intro e he
        exact h e he
    | none =>
      by_cases hok : ok g = true
      · simp only [halk, hok, if_true]
        apply ih
        intro e he
        rcases List.mem_append.mp he with he | he
        · exact alookup_append_of_some _ _ _ _ (h e he)
        · simp only [List.mem_singleton] at he
          subst he
          exact alookup_append_self _ _ _ halk
      · simp only [halk, hok, Bool.false_eq_true, if_false]
        apply ih
        intro e he
        exact alookup_append_of_some _ _ _ _ (h e he)

/-- Main invariant of the remapping loop: given a cursor at or above the
anchor, a mapping whose targets sit strictly below the cursor, are
Sunday-free, at or above the anchor and strictly increasing in key order,
with all keys at most every upcoming source date, and upcoming source
dates non-decreasing, the final mapping is Sunday-free, at or above the
anchor, and strictly increasing in both keys and targets. -/
theorem bulk_loop_inv (ok : OrderGroup → Bool) (anchor : Nat) :
    ∀ (gs : List OrderGroup) (c : Nat) (dm : List (Nat × Nat)) (res : BulkResults),
    anchor ≤ c →
    (∀ p ∈ dm, p.2 < c) →
    (∀ p ∈ dm, isSunday p.2 = false ∧ anchor ≤ p.2) →
    dm.Pairwise (fun p q => p.1 < q.1 ∧ p.2 < q.2) →
    (∀ p ∈ dm, ∀ g ∈ gs, p.1 ≤ g.scheduled_date) →
    gs.Pairwise (fun a b => a.scheduled_date ≤ b.scheduled_date) →
    (∀ p ∈ (bulk_loop ok gs c dm res).2, isSunday p.2 = false ∧ anchor ≤ p.2) ∧
      (bulk_loop ok gs c dm res).2.Pairwise (fun p q => p.1 < q.1 ∧ p.2 < q.2) := by
  intro gs
  induction gs with
  | nil =>
    intro c dm res h1 h2 h3 h4 h5 h6
    exact ⟨fun p hp => h3 p hp, h4⟩
  | cons g gs ih =>
    intro c dm res h1 h2 h3 h4 h5 h6
    have hgdates : ∀ b ∈ gs, g.scheduled_date ≤ b.scheduled_date :=
      fun b hb => List.rel_of_pairwise_cons h6 hb
    have h6t : gs.Pairwise (fun a b => a.scheduled_date ≤ b.scheduled_date) := h6.of_cons
    simp only [bulk_loop]
    cases halk : alookup dm g.scheduled_date with
    | some nd =>
      have h5t : ∀ p ∈ dm, ∀ b ∈ gs, p.1 ≤ b.scheduled_date :=
        fun p hp b hb => h5 p hp b (List.mem_cons_of_mem _ hb)
      by_cases hok : ok g = true
      · simp only [halk, hok, if_true]
        exact ih c dm _ h1 h2 h3 h4 h5t h6t
      · simp only [halk, hok, Bool.false_eq_true, if_false]
        exact ih c dm _ h1 h2 h3 h4 h5t h6t
    | none =>
      have hkey : ∀ p ∈ dm, p.1 ≠ g.scheduled_date := alookup_none_not_key _ _ halk
      have hct : c ≤ skipSundays c := le_skipSundays c
      have h1n : anchor ≤ skipSundays c + 1 := Nat.le_succ_of_le (Nat.le_trans h1 hct)
      have h2n : ∀ p ∈ dm ++ [(g.scheduled_date, skipSundays c)], p.2 < skipSundays c + 1 := by
        intro p hp
        rcases List.mem_append.mp hp with hp | hp
        · exact Nat.lt_succ_of_lt (Nat.lt_of_lt_of_le (h2 p hp) hct)
        · simp only [List.mem_singleton] at hp
          subst hp
          exact Nat.lt_succ_self _
      have h3n : ∀ p ∈ dm ++ [(g.scheduled_date, skipSundays c)],
          isSunday p.2 = false ∧ anchor ≤ p.2 := by
        intro p hp
        rcases List.mem_append.mp hp with hp | hp
        · exact h3 p hp
        · simp only [List.mem_singleton] at hp
          subst hp
          exact ⟨skipSundays_not_sunday c, Nat.le_trans h1 hct⟩
      have h4n : (dm ++ [(g.scheduled_date, skipSundays c)]).Pairwise
          (fun p q => p.1 < q.1 ∧ p.2 < q.2) := by
        rw [List.pairwise_append]
        refine ⟨h4, List.pairwise_singleton _ _, ?_⟩
        intro p hp q hq
        simp only [List.mem_singleton] at hq
        subst hq
        refine ⟨?_, Nat.lt_of_lt_of_le (h2 p hp) hct⟩
        have hle := h5 p hp g (List.mem_cons_self _ _)
        exact Nat.lt_of_le_of_ne hle (hkey p hp)
      have h5n : ∀ p ∈ dm ++ [(g.scheduled_date, skipSundays c)],
          ∀ b ∈ gs, p.1 ≤ b.scheduled_date := by
        intro p hp b hb
        rcases List.mem_append.mp hp with hp | hp
        · exact h5 p hp b (List.mem_cons_of_mem _ hb)
        · simp only [List.mem_singleton] at hp
          subst hp
          exact hgdates b hb
      by_cases hok : ok g = true
      · simp only [halk, hok, if_true]
        exact ih (skipSundays c + 1) _ _ h1n h2n h3n h4n h5n h6t
      · simp only [halk, hok, Bool.false_eq_true, if_false]
        exact ih (skipSundays c + 1) _ _ h1n h2n h3n h4n h5n h6t

/-- Bookkeeping of the bulk loop: each record contributes exactly one
success or one failure, in order, and the loop never stops early. -/
theorem bulk_loop_counts (ok : OrderGroup → Bool) :
    ∀ (gs : List OrderGroup) (c : Nat) (dm : List (Nat × Nat)) (res : BulkResults),
    (bulk_loop ok gs c dm res).1.success_count =
        res.success_count + (gs.filter (fun g => ok g)).length ∧
    (bulk_loop ok gs c dm res).1.failed_count =
        res.failed_count + (gs.filter (fun g => !ok g)).length ∧
    (bulk_loop ok gs c dm res).1.rescheduled.map (fun e => (e.1, e.2.1)) =
        res.rescheduled.map (fun e => (e.1, e.2.1)) ++
          (gs.filter (fun g => ok g)).map (fun g => (g.id, g.scheduled_date)) ∧
    (bulk_loop ok gs c dm res).1.failed =
        res.failed ++ (gs.filter (fun g => !ok g)).map (fun g => (g.id, "Reschedule failed")) := by
  intro gs
  induction gs with
  | nil => intro c dm res; simp [bulk_loop]
  | cons g gs ih =>
    intro c dm res
    simp only [bulk_loop]
    cases halk : alookup dm g.scheduled_date with
    | some nd =>
      by_cases hok : ok g = true
      · simp only [halk, hok, if_true]
        obtain ⟨i1, i2, i3, i4⟩ := ih c dm { res with
          success_count := res.success_count + 1,
          rescheduled := res.rescheduled ++ [(g.id, g.scheduled_date, nd)] }
        refine ⟨?_, ?_, ?_, ?_⟩
        · rw [i1]; simp [List.filter_cons, hok]; omega
        · rw [i2]; simp [List.filter_cons, hok]
        · rw [i3]; simp [List.filter_cons, hok]
        · rw [i4]; simp [List.filter_cons, hok]
      · simp only [halk, hok, Bool.false_eq_true, if_false]
        obtain ⟨i1, i2, i3, i4⟩ := ih c dm { res with
          failed_count := res.failed_count + 1,
          failed := res.failed ++ [(g.id, "Reschedule failed")] }
        simp only [Bool.not_eq_true] at hok
        refine ⟨?_, ?_, ?_, ?_⟩
        · rw [i1]; simp [List.filter_cons, hok]
        · rw [i2]; simp [List.filter_cons, hok]; omega
        · rw [i3]; simp [List.filter_cons, hok]
        · rw [i4]; simp [List.filter_cons, hok]
    | none =>
      by_cases hok : ok g = true
      · simp only [halk, hok, if_true]
        obtain ⟨i1, i2, i3, i4⟩ := ih (skipSundays c + 1)
          (dm ++ [(g.scheduled_date, skipSundays c)]) { res with
          success_count := res.success_count + 1,
          rescheduled := res.rescheduled ++ [(g.id, g.scheduled_date, skipSundays c)] }
        refine ⟨?_, ?_, ?_, ?_⟩
        · rw [i1]; simp [List.filter_cons, hok]; omega
        · rw [i2]; simp [List.filter_cons, hok]
        · rw [i3]; simp [List.filter_cons, hok]
        · rw [i4]; simp [List.filter_cons, hok]
      · simp only [halk, hok, Bool.false_eq_true, if_false]
        obtain ⟨i1, i2, i3, i4⟩ := ih (skipSundays c + 1)
          (dm ++ [(g.scheduled_date, skipSundays c)]) { res with
          failed_count := res.failed_count + 1,
          failed := res.failed ++ [(g.id, "Reschedule failed")] }
        simp only [Bool.not_eq_true] at hok
        refine ⟨?_, ?_, ?_, ?_⟩
        · rw [i1]; simp [List.filter_cons, hok]
        · rw [i2]; simp [List.filter_cons, hok]; omega
        · rw [i3]; simp [List.filter_cons, hok]
        · rw [i4]; simp [List.filter_cons, hok]

/-- C1: for every non-empty list of delivery records sorted ascending by
(date, mealType) and every non-Sunday anchor date, the date-mapping
computed by the bulk-reschedule loop assigns all records sharing a source
date the same target date, assigns no Sunday, is strictly increasing in
both source and target date along the mapping (hence injective and never
revisiting an earlier date), and every target date, in particular the
earliest, is at least the anchor date. -/
theorem bulk_mapping_grouped_monotone_sundayfree
    (ok : OrderGroup → Bool) (gs : List OrderGroup) (anchor : Nat)
    (_hne : gs ≠ []) (hsorted : sortedByDateType gs)
    (_hanchor : isSunday anchor = false) :
    (∀ e1 ∈ (bulk_loop ok gs anchor [] emptyResults).1.rescheduled,
      ∀ e2 ∈ (bulk_loop ok gs anchor [] emptyResults).1.rescheduled,
        e1.2.1 = e2.2.1 → e1.2.2 = e2.2.2) ∧
    (∀ p ∈ (bulk_loop ok gs anchor [] emptyResults).2, isSunday p.2 = false) ∧
    (bulk_loop ok gs anchor [] emptyResults).2.Pairwise
      (fun p q => p.1 < q.1 ∧ p.2 < q.2) ∧
    (∀ p ∈ (bulk_loop ok gs anchor [] emptyResults).2, anchor ≤ p.2) := by
  have hdates : gs.Pairwise (fun a b => a.scheduled_date ≤ b.scheduled_date) :=
    hsorted.imp fun h => keyLE_date h
  have hinv := bulk_loop_inv ok anchor gs anchor [] emptyResults (Nat.le_refl anchor)
    (by intro p hp; cases hp) (by intro p hp; cases hp) (List.Pairwise.nil)
    (by intro p hp; cases hp) hdates
  have hlk := bulk_loop_lookup ok gs anchor [] emptyResults
    (by intro e he; simp [emptyResults] at he)
  refine ⟨?_, fun p hp => (hinv.1 p hp).1, hinv.2, fun p hp => (hinv.1 p hp).2⟩
  intro e1 h1 e2 h2 heq
  have k1 := hlk e1 h1
  have k2 := hlk e2 h2
  rw [heq] at k1
  rw [k1] at k2
  exact Option.some_inj.mp k2

theorem bulk_mapping_grouped_monotone_sundayfree_witness :
    (([sampleG1, sampleG2] : List OrderGroup) ≠ [] ∧
      sortedByDateType [sampleG1, sampleG2] ∧
      isSunday (toOrdinal 2024 1 13) = false) ∧
    ((∀ e1 ∈ (bulk_loop (fun _ => true) [sampleG1, sampleG2]
          (toOrdinal 2024 1 13) [] emptyResults).1.rescheduled,
      ∀ e2 ∈ (bulk_loop (fun _ => true) [sampleG1, sampleG2]
          (toOrdinal 2024 1 13) [] emptyResults).1.rescheduled,
        e1.2.1 = e2.2.1 → e1.2.2 = e2.2.2) ∧
    (∀ p ∈ (bulk_loop (fun _ => true) [sampleG1, sampleG2]
        (toOrdinal 2024 1 13) [] emptyResults).2, isSunday p.2 = false) ∧
    (bulk_loop (fun _ => true) [sampleG1, sampleG2]
        (toOrdinal 2024 1 13) [] emptyResults).2.Pairwise
      (fun p q => p.1 < q.1 ∧ p.2 < q.2) ∧
    (∀ p ∈ (bulk_loop (fun _ => true) [sampleG1, sampleG2]
        (toOrdinal 2024 1 13) [] emptyResults).2, toOrdinal 2024 1 13 ≤ p.2)) :=
  ⟨⟨by decide, by decide, by decide⟩,
    bulk_mapping_grouped_monotone_sundayfree (fun _ => true) [sampleG1, sampleG2]
      (toOrdinal 2024 1 13) (by decide) (by decide) (by decide)⟩

/-- C5: over the M selected records of a bulk reschedule in which exactly
N per-record updates fail, the result has success_count = M - N,
failed_count = N, the rescheduled list holds exactly the succeeding
records with their source dates (their target dates being exactly what
the day mapping assigns), the failed list holds exactly the failing
record ids, and no failure stops the loop: every selected record lands in
exactly one of the two lists. -/
theorem bulk_partial_failure_exact (ok : OrderGroup → Bool) (gs : List OrderGroup)
    (anchor : Nat) :
    (bulk_loop ok gs anchor [] emptyResults).1.success_count
        = gs.length - (gs.filter (fun g => !ok g)).length ∧
    (bulk_loop ok gs anchor [] emptyResults).1.failed_count
        = (gs.filter (fun g => !ok g)).length ∧
    (bulk_loop ok gs anchor [] emptyResults).1.rescheduled.map (fun e => (e.1, e.2.1))
        = (gs.filter (fun g => ok g)).map (fun g => (g.id, g.scheduled_date)) ∧
    (bulk_loop ok gs anchor [] emptyResults).1.failed
        = (gs.filter (fun g => !ok g)).map (fun g => (g.id, "Reschedule failed")) ∧
    (∀ e ∈ (bulk_loop ok gs anchor [] emptyResults).1.rescheduled,
        alookup (bulk_loop ok gs anchor [] emptyResults).2 e.2.1 = some e.2.2) := by
  obtain ⟨i1, i2, i3, i4⟩ := bulk_loop_counts ok gs anchor [] emptyResults
  have hM := List.length_eq_length_filter_add (l := gs) (fun g => ok g)
  refine ⟨?_, ?_, ?_, ?_, ?_⟩
  · rw [i1]
    simp only [emptyResults, Nat.zero_add]
    omega
  · rw [i2]; simp [emptyResults]
  · rw [i3]; simp [emptyResults]
  · rw [i4]; simp [emptyResults]
  · exact bulk_loop_lookup ok gs anchor [] emptyResults
      (by intro e he; simp [emptyResults] at he)

/-- C6: with records dated 2024-01-06 and 2024-01-08 and anchor
2024-01-13 (a Saturday), the remapping produces exactly
2024-01-06 to 2024-01-13 and 2024-01-08 to 2024-01-15, skipping Sunday
2024-01-14. -/
theorem bulk_mapping_example_jan :
    isSunday (toOrdinal 2024 1 14) = true ∧
    (bulk_reschedule (fun _ => true) [sampleG1, sampleG2] (toOrdinal 2024 1 6)
        (toOrdinal 2024 1 8) (toOrdinal 2024 1 13) none).2
      = [(toOrdinal 2024 1 6, toOrdinal 2024 1 13),
         (toOrdinal 2024 1 8, toOrdinal 2024 1 15)] := by decide

/-- Behaviour of the skip loop under an arbitrary pattern of per-record
successes and failures, starting from a non-Sunday cursor: every record
is attempted; an attempt follows the previous one on the same date after
a failure and on the next Sunday-free day after a success; all attempted
and all recorded dates are Sunday-free and at least the initial cursor;
the first attempt uses the initial cursor; recorded dates strictly
increase. -/
theorem skip_loop_spec (ok : OrderGroup → Bool) (skip_date : String) :
    ∀ (l : List OrderGroup) (t : Nat), isSunday t = false →
    ((skip_loop ok l skip_date t).2.map (fun p => p.1) = l) ∧
    ((skip_loop ok l skip_date t).2.Chain' (fun a b =>
        b.2 = if ok a.1 then skipSundays (a.2 + 1) else a.2)) ∧
    (∀ p ∈ (skip_loop ok l skip_date t).2, t ≤ p.2 ∧ isSunday p.2 = false) ∧
    (∀ hd, (skip_loop ok l skip_date t).2.head? = some hd → hd.2 = t) ∧
    (∀ e ∈ (skip_loop ok l skip_date t).1, t ≤ e.to_date ∧ isSunday e.to_date = false) ∧
    ((skip_loop ok l skip_date t).1.Pairwise (fun a b => a.to_date < b.to_date)) := by
  intro l
  induction l with
  | nil =>
    intro t ht
    simp [skip_loop]
  | cons g gs ih =>
    intro t ht
    by_cases hok : ok g = true
    · have ht' : isSunday (skipSundays (t + 1)) = false := skipSundays_not_sunday (t + 1)
      have htle : t ≤ skipSundays (t + 1) :=
        Nat.le_trans (Nat.le_succ t) (le_skipSundays (t + 1))
      have htlt : t < skipSundays (t + 1) :=
        Nat.lt_of_lt_of_le (Nat.lt_succ_self t) (le_skipSundays (t + 1))
      obtain ⟨i1, i2, i3, i4, i5, i6⟩ := ih (skipSundays (t + 1)) ht'
      simp only [skip_loop, hok, if_true]
      refine ⟨by simpa using i1, ?_, ?_, ?_, ?_, ?_⟩
      · rw [List.chain'_cons']
        refine ⟨?_, i2⟩
        intro y hy
        have := i4 y (by simpa using hy)
        simp [this, hok]
      · intro p hp
        rcases List.mem_cons.mp hp with rfl | hp
        · exact ⟨Nat.le_refl t, ht⟩
        · have := i3 p hp
          exact ⟨Nat.le_trans htle this.1, this.2⟩
      · intro hd hhd
        simp only [List.head?_cons, Option.some_inj] at hhd
        subst hhd
        rfl
      · intro e he
        rcases List.mem_cons.mp he with rfl | he
        · exact ⟨Nat.le_refl t, ht⟩
        · have := i5 e he
          exact ⟨Nat.le_trans htle this.1, this.2⟩
      · rw [List.pairwise_cons]
        refine ⟨?_, i6⟩
        intro e he
        exact Nat.lt_of_lt_of_le htlt (i5 e he).1
    · obtain ⟨i1, i2, i3, i4, i5, i6⟩ := ih t ht
      simp only [skip_loop, hok, Bool.false_eq_true, if_false]
      refine ⟨by simpa using i1, ?_, ?_, ?_, i5, i6⟩
      · rw [List.chain'_cons']
        refine ⟨?_, i2⟩
        intro y hy
        have := i4 y (by simpa using hy)
        simp [this, hok]
      · intro p hp
        rcases List.mem_cons.mp hp with rfl | hp
        · exact ⟨Nat.le_refl t, ht⟩
        · exact i3 p hp
      · intro hd hhd
        simp only [List.head?_cons, Option.some_inj] at hhd
        subst hhd
        rfl

/-- When every per-record update succeeds, the skip loop records one
entry per record, in order, the first on the initial cursor and each
following on the next Sunday-free day. -/
theorem skip_loop_all_success (skip_date : String) :
    ∀ (l : List OrderGroup) (t : Nat),
    ((skip_loop (fun _ => true) l skip_date t).1.map (fun e => e.group_id)
        = l.map (fun g => g.id)) ∧
    ((skip_loop (fun _ => true) l skip_date t).1.Chain' (fun a b =>
        b.to_date = skipSundays (a.to_date + 1))) ∧
    (∀ hd, (skip_loop (fun _ => true) l skip_date t).1.head? = some hd → hd.to_date = t) := by
  intro l
  induction l with
  | nil => intro t; simp [skip_loop]
  | cons g gs ih =>
    intro t
    obtain ⟨i1, i2, i3⟩ := ih (skipSundays (t + 1))
    simp only [skip_loop, if_true]
    refine ⟨by simpa using i1, ?_, ?_⟩
    · rw [List.chain'_cons']
      refine ⟨?_, i2⟩
      intro y hy
      have := i3 y (by simpa using hy)
      simp [this]
    · intro hd hhd
      simp only [List.head?_cons, Option.some_inj] at hhd
      subst hhd
      rfl

/-- C3: when every per-record update succeeds, skip_day assigns each
qualifying editable record on the skip date its own target date, one per
record in order, sequential (each the next Sunday-free day after the
previous), strictly increasing, Sunday-free, and the first is the first
non-Sunday day strictly after the maximum scheduled date over all of the
order records, not only the skipped ones. -/
theorem skip_day_distinct_sequential_after_max
    (groups : List OrderGroup) (sd : Nat) (raw : String) (tl : Option (List String))
    (L : Nat)
    (hL : listMax (groups.map (fun g => g.scheduled_date)) = some L)
    (hq : skipQualifying groups sd tl ≠ []) :
    ∀ r, (skip_day (fun _ => true) true groups (some sd) raw tl).1 = Except.ok r →
      (r.skipped.map (fun e => e.group_id)
          = (skipQualifying groups sd tl).map (fun g => g.id)) ∧
      r.skipped.Chain' (fun a b => b.to_date = skipSundays (a.to_date + 1)) ∧
      r.skipped.Pairwise (fun a b => a.to_date < b.to_date) ∧
      (∀ e ∈ r.skipped, isSunday e.to_date = false) ∧
      (∀ hd, r.skipped.head? = some hd →
        L < hd.to_date ∧ isSunday hd.to_date = false ∧
          ∀ d, L < d → isSunday d = false → hd.to_date ≤ d) := by
  intro r hr
  have hempty : (skipQualifying groups sd tl).isEmpty = false := by
    cases h : skipQualifying groups sd tl with
    | nil => exact absurd h hq
    | cons a l => rfl
  simp [skip_day, hL, hempty] at hr
  have hrs : r.skipped
      = (skip_loop (fun _ => true) (skipQualifying groups sd tl) raw
          (skipSundays (L + 1))).1 := by
    rw [← hr]
  have ht0 : isSunday (skipSundays (L + 1)) = false := skipSundays_not_sunday (L + 1)
  obtain ⟨_, _, _, _, s5, s6⟩ :=
    skip_loop_spec (fun _ => true) raw (skipQualifying groups sd tl)
      (skipSundays (L + 1)) ht0
  obtain ⟨a1, a2, a3⟩ :=
    skip_loop_all_success raw (skipQualifying groups sd tl) (skipSundays (L + 1))
  rw [hrs]
  refine ⟨a1, a2, s6, fun e he => (s5 e he).2, ?_⟩
  intro hd hhd
  have hdt := a3 hd hhd
  have hlt : L < skipSundays (L + 1) :=
    Nat.lt_of_lt_of_le (Nat.lt_succ_self L) (le_skipSundays (L + 1))
  refine ⟨by rw [hdt]; exact hlt, by rw [hdt]; exact ht0, ?_⟩
  intro d hLd hdsun
  rw [hdt]
  exact skipSundays_min (L + 1) d hLd hdsun

theorem skip_day_distinct_sequential_after_max_witness :
    (listMax ([sampleG1, sampleG2].map (fun g => g.scheduled_date))
        = some (toOrdinal 2024 1 8) ∧
      skipQualifying [sampleG1, sampleG2] (toOrdinal 2024 1 6) none ≠ []) ∧
    (∀ r, (skip_day (fun _ => true) true [sampleG1, sampleG2]
        (some (toOrdinal 2024 1 6)) "2024-01-06" none).1 = Except.ok r →
      (r.skipped.map (fun e => e.group_id)
          = (skipQualifying [sampleG1, sampleG2] (toOrdinal 2024 1 6) none).map
              (fun g => g.id)) ∧
      r.skipped.Chain' (fun a b => b.to_date = skipSundays (a.to_date + 1)) ∧
      r.skipped.Pairwise (fun a b => a.to_date < b.to_date) ∧
      (∀ e ∈ r.skipped, isSunday e.to_date = false) ∧
      (∀ hd, r.skipped.head? = some hd →
        toOrdinal 2024 1 8 < hd.to_date ∧ isSunday hd.to_date = false ∧
          ∀ d, toOrdinal 2024 1 8 < d → isSunday d = false → hd.to_date ≤ d)) :=
  ⟨⟨by decide, by decide⟩,
    skip_day_distinct_sequential_after_max [sampleG1, sampleG2] (toOrdinal 2024 1 6)
      "2024-01-06" none (toOrdinal 2024 1 8) (by decide) (by decide)⟩

/-- C10: in skip_day, across any mix of per-record successes and
failures, the trace of attempted updates advances the cursor to the next
Sunday-free day exactly after a success and keeps the same target date
after a failure, and the reported skipped entries always carry strictly
increasing, Sunday-free target dates. -/
theorem skip_day_failure_keeps_cursor (ok : OrderGroup → Bool)
    (groups : List OrderGroup) (sd : Nat) (raw : String)
    (tl : Option (List String)) :
    ((skip_day ok true groups (some sd) raw tl).2.Chain' (fun a b =>
        b.2 = if ok a.1 then skipSundays (a.2 + 1) else a.2)) ∧
    (∀ r, (skip_day ok true groups (some sd) raw tl).1 = Except.ok r →
      r.skipped.Pairwise (fun a b => a.to_date < b.to_date) ∧
      ∀ e ∈ r.skipped, isSunday e.to_date = false) := by
  cases hL : listMax (groups.map (fun g => g.scheduled_date)) with
  | none =>
    constructor
    · simp [skip_day, hL]
    · intro r hr
      simp [skip_day, hL] at hr
  | some L =>
    by_cases hq : (skipQualifying groups sd tl).isEmpty = true
    · constructor
      · simp [skip_day, hL, hq]
      · intro r hr
        simp [skip_day, hL, hq] at hr
        rw [← hr]
        exact ⟨List.Pairwise.nil, by intro e he; cases he⟩
    · simp only [Bool.not_eq_true] at hq
      have ht0 : isSunday (skipSundays (L + 1)) = false := skipSundays_not_sunday (L + 1)
      obtain ⟨_, s2, _, _, s5, s6⟩ :=
        skip_loop_spec ok raw (skipQualifying groups sd tl) (skipSundays (L + 1)) ht0
      constructor
      · simp only [skip_day, hL, hq]
        simp only [Bool.false_eq_true, if_false]
        exact s2
      · intro r hr
        simp [skip_day, hL, hq] at hr
        rw [← hr]
        exact ⟨s6, fun e he => (s5 e he).2⟩

/-- C2 counterexample: holding 2024-01-08 through 2024-01-13 fixes the
anchor to Sunday 2024-01-14, yet hold_deliveries is not rejected: it
computes the mapping and issues a successful remote update (one delivery
held). -/
theorem hold_sunday_anchor_not_rejected :
    isSunday (toOrdinal 2024 1 13 + 1) = true ∧
    hold_deliveries (fun _ => true) true [sampleG2] (some (toOrdinal 2024 1 8))
        (some (toOrdinal 2024 1 13)) "2024-01-08" "2024-01-13" none =
      Except.ok ⟨true, "2024-01-08 to 2024-01-13", toOrdinal 2024 1 13 + 1, 1, 0⟩ :=
  ⟨by decide, by rfl⟩

/-- C2 amended: the bulk_reschedule tool rejects a Sunday target start
date before any mapping is computed and before any remote update is
issued (the client is never called); hold_deliveries performs no such
check and always proceeds to the client call when its inputs parse and
the session is authenticated. -/
theorem bulk_tool_rejects_sunday_anchor (ok : OrderGroup → Bool) (authed : Bool)
    (groups : List OrderGroup) (s e t : Nat) (raw : String)
    (tl : Option (List String)) (ht : isSunday t = true) :
    bulk_reschedule_tool ok authed groups (some s) (some e) (some t) raw tl =
      (Except.ok ("Cannot start rescheduling on Sunday (" ++ raw ++ ")."), none) ∧
    ∀ s2 e2 : Nat,
      isOkE (hold_deliveries ok true groups (some s2) (some e2) raw raw tl) = true := by
  constructor
  · simp [bulk_reschedule_tool, ht]
  · intro s2 e2
    simp [hold_deliveries, isOkE]

theorem bulk_tool_rejects_sunday_anchor_witness :
    isSunday (toOrdinal 2024 1 14) = true ∧
    (bulk_reschedule_tool (fun _ => true) true [sampleG1] (some (toOrdinal 2024 1 6))
        (some (toOrdinal 2024 1 8)) (some (toOrdinal 2024 1 14)) "2024-01-14" none =
      (Except.ok ("Cannot start rescheduling on Sunday (" ++ "2024-01-14" ++ ")."), none) ∧
    ∀ s2 e2 : Nat,
      isOkE (hold_deliveries (fun _ => true) true [sampleG1] (some s2) (some e2)
        "2024-01-14" "2024-01-14" none) = true) :=
  ⟨by decide,
    bulk_tool_rejects_sunday_anchor (fun _ => true) true [sampleG1] (toOrdinal 2024 1 6)
      (toOrdinal 2024 1 8) (toOrdinal 2024 1 14) "2024-01-14" none (by decide)⟩

theorem skip_day_failure_keeps_cursor_witness :
    ((skip_day (fun _ => false) true [sampleG1, sampleG3, sampleG2]
        (some (toOrdinal 2024 1 6)) "2024-01-06" none).2.Chain' (fun a b =>
          b.2 = if (fun (_ : OrderGroup) => false) a.1 then skipSundays (a.2 + 1)
            else a.2)) ∧
    (List.Pairwise (fun a b => a.to_date < b.to_date)
        (SkipResult.mk true "Skipped 0 deliveries from 2024-01-06" []).skipped ∧
      ∀ e ∈ (SkipResult.mk true "Skipped 0 deliveries from 2024-01-06" []).skipped,
        isSunday e.to_date = false) :=
  ⟨(skip_day_failure_keeps_cursor (fun _ => false) [sampleG1, sampleG3, sampleG2]
      (toOrdinal 2024 1 6) "2024-01-06" none).1,
    (skip_day_failure_keeps_cursor (fun _ => false) [sampleG1, sampleG3, sampleG2]
      (toOrdinal 2024 1 6) "2024-01-06" none).2
      (SkipResult.mk true "Skipped 0 deliveries from 2024-01-06" []) (by rfl)⟩

/-- C7: a single reschedule with a Sunday target date or an invalid meal
type returns a descriptive failure message and issues no remote update;
with valid inputs but a record id absent from the order records it
returns the not-found message and issues no remote update. -/
theorem reschedule_delivery_rejects (ok authed : Bool) (groups : List OrderGroup)
    (order_id group_id : Nat) (nd : Nat) (raw : String) (address_id : Nat)
    (order_type : String) :
    (isSunday nd = true ∨ (["LUNCH", "DINNER"].contains order_type) = false →
      (reschedule_delivery_tool ok authed groups order_id group_id (some nd) raw
          address_id order_type).2 = [] ∧
      ((reschedule_delivery_tool ok authed groups order_id group_id (some nd) raw
          address_id order_type).1
          = Except.ok ("Cannot schedule delivery on Sunday (" ++ raw
              ++ "). Please choose a different date.") ∨
        (reschedule_delivery_tool ok authed groups order_id group_id (some nd) raw
          address_id order_type).1
          = Except.ok "order_type must be either LUNCH or DINNER")) ∧
    (isSunday nd = false → (["LUNCH", "DINNER"].contains order_type) = true →
      authed = true → groups.find? (fun g => g.id == group_id) = none →
      (reschedule_delivery_tool ok authed groups order_id group_id (some nd) raw
          address_id order_type).1
        = Except.ok ("Group " ++ toString group_id ++ " not found in order "
            ++ toString order_id) ∧
      (reschedule_delivery_tool ok authed groups order_id group_id (some nd) raw
          address_id order_type).2 = []) := by
  constructor
  · intro h
    rcases h with h | h
    · constructor
      · simp [reschedule_delivery_tool, h]
      · exact Or.inl (by simp [reschedule_delivery_tool, h])
    · by_cases hs : isSunday nd = true
      · constructor
        · simp [reschedule_delivery_tool, hs]
        · exact Or.inl (by simp [reschedule_delivery_tool, hs])
      · simp only [Bool.not_eq_true] at hs
        have h2 : ¬ (order_type = "LUNCH") ∧ ¬ (order_type = "DINNER") := by
          simpa using h
        constructor
        · simp [reschedule_delivery_tool, hs, h2.1, h2.2]
        · exact Or.inr (by simp [reschedule_delivery_tool, hs, h2.1, h2.2])
  · intro h1 h2 h3 h4
    subst h3
    have h2b : order_type = "LUNCH" ∨ order_type = "DINNER" := by simpa using h2
    rcases h2b with rfl | rfl
    · simp [reschedule_delivery_tool, h1, h4]
    · simp [reschedule_delivery_tool, h1, h4]

theorem reschedule_delivery_rejects_witness :
    ((reschedule_delivery_tool true true [sampleG1] 7 1 (some (toOrdinal 2024 1 14))
        "2024-01-14" 5 "LUNCH").2 = [] ∧
      ((reschedule_delivery_tool true true [sampleG1] 7 1 (some (toOrdinal 2024 1 14))
          "2024-01-14" 5 "LUNCH").1
          = Except.ok ("Cannot schedule delivery on Sunday (" ++ "2024-01-14"
              ++ "). Please choose a different date.") ∨
        (reschedule_delivery_tool true true [sampleG1] 7 1 (some (toOrdinal 2024 1 14))
          "2024-01-14" 5 "LUNCH").1
          = Except.ok "order_type must be either LUNCH or DINNER")) ∧
    ((reschedule_delivery_tool true true [sampleG1] 7 99 (some (toOrdinal 2024 1 15))
        "2024-01-15" 5 "LUNCH").1
        = Except.ok ("Group " ++ toString 99 ++ " not found in order " ++ toString 7) ∧
      (reschedule_delivery_tool true true [sampleG1] 7 99 (some (toOrdinal 2024 1 15))
        "2024-01-15" 5 "LUNCH").2 = []) :=
  ⟨(reschedule_delivery_rejects true true [sampleG1] 7 1 (toOrdinal 2024 1 14)
      "2024-01-14" 5 "LUNCH").1 (Or.inl (by decide)),
    (reschedule_delivery_rejects true true [sampleG1] 7 99 (toOrdinal 2024 1 15)
      "2024-01-15" 5 "LUNCH").2 (by decide) (by decide) rfl (by decide)⟩

theorem change_address_loop_calls (ok : OrderGroup → Bool)
    (order_id new_address_id : Nat) :
    ∀ l : List OrderGroup,
      ∀ c ∈ (change_address_loop ok order_id new_address_id l).2,
        ∃ g, g ∈ l ∧ is_editable g = true ∧
          c = ⟨g.id, g.schedule_id, g.scheduled_date, new_address_id, g.order_type,
            order_id, []⟩ := by
  intro l
  induction l with
  | nil => intro c hc; cases hc
  | cons g gs ih =>
    intro c hc
    simp only [change_address_loop] at hc
    by_cases hed : is_editable g = false
    · simp only [hed, if_true] at hc
      obtain ⟨g2, hg2, he2, hc2⟩ := ih c hc
      exact ⟨g2, List.mem_cons_of_mem _ hg2, he2, hc2⟩
    · simp only [hed, Bool.false_eq_true, if_false] at hc
      simp only [Bool.not_eq_false] at hed
      by_cases hok : ok g = true
      · simp only [hok, if_true] at hc
        rcases List.mem_cons.mp hc with rfl | hc
        · exact ⟨g, List.mem_cons_self _ _, hed, rfl⟩
        · obtain ⟨g2, hg2, he2, hc2⟩ := ih c hc
          exact ⟨g2, List.mem_cons_of_mem _ hg2, he2, hc2⟩
      · simp only [hok, Bool.false_eq_true, if_false] at hc
        rcases List.mem_cons.mp hc with rfl | hc
        · exact ⟨g, List.mem_cons_self _ _, hed, rfl⟩
        · obtain ⟨g2, hg2, he2, hc2⟩ := ih c hc
          exact ⟨g2, List.mem_cons_of_mem _ hg2, he2, hc2⟩

theorem change_address_range_calls (ok : OrderGroup → Bool) (authed : Bool)
    (groups : List OrderGroup) (order_id new_address_id : Nat) (s e : Nat)
    (types_arg : Option (List String)) :
    ∀ c ∈ (change_address_range ok authed groups order_id new_address_id s e
        types_arg).2,
      ∃ g, g ∈ groups ∧ is_editable g = true ∧
        c = ⟨g.id, g.schedule_id, g.scheduled_date, new_address_id, g.order_type,
          order_id, []⟩ := by
  intro c hc
  simp only [change_address_range] at hc
  by_cases ha : authed = false
  · rw [if_pos ha] at hc
    exact absurd hc (List.not_mem_nil c)
  · rw [if_neg ha] at hc
    cases hta : types_arg with
    | none =>
      rw [hta] at hc
      by_cases hemp : (get_orders_by_date_range groups s e).isEmpty = true
      · rw [if_pos hemp] at hc
        exact absurd hc (List.not_mem_nil c)
      · rw [if_neg hemp] at hc
        obtain ⟨g, hg, he, hcc⟩ := change_address_loop_calls ok order_id new_address_id _ c hc
        refine ⟨g, ?_, he, hcc⟩
        have := (mem_sortGroups g _).mp hg
        exact (List.mem_filter.mp this).1
    | some tlist =>
      rw [hta] at hc
      by_cases hemp : ((get_orders_by_date_range groups s e).filter
          (fun g => tlist.contains g.order_type)).isEmpty = true
      · rw [if_pos hemp] at hc
        exact absurd hc (List.not_mem_nil c)
      · rw [if_neg hemp] at hc
        obtain ⟨g, hg, he, hcc⟩ := change_address_loop_calls ok order_id new_address_id _ c hc
        refine ⟨g, ?_, he, hcc⟩
        have hg2 := (List.mem_filter.mp hg).1
        have := (mem_sortGroups g _).mp hg2
        exact (List.mem_filter.mp this).1

/-- C4: every remote update issued by change_address belongs to an
editable selected record and carries that record's own unchanged date
and meal type, the new address id being the only intended change; and,
when record ids are unique within the order, no non-editable record
receives any update. -/
theorem change_address_only_address (ok : OrderGroup → Bool) (authed : Bool)
    (groups : List OrderGroup) (order_id new_address_id : Nat)
    (date_arg start_arg end_arg : Option (Option Nat))
    (types_arg : Option (List String))
    (hids : (groups.map (fun g => g.id)).Nodup) :
    ∀ c ∈ (change_address_tool ok authed groups order_id new_address_id date_arg
        start_arg end_arg types_arg).2,
      (∃ g, g ∈ groups ∧ is_editable g = true ∧ c.group_id = g.id ∧
        c.new_date = g.scheduled_date ∧ c.order_type = g.order_type ∧
        c.address_id = new_address_id ∧ c.notes = []) ∧
      (∀ g2, g2 ∈ groups → is_editable g2 = false → c.group_id ≠ g2.id) := by
  have key : ∀ c ∈ (change_address_tool ok authed groups order_id new_address_id
      date_arg start_arg end_arg types_arg).2,
      ∃ g, g ∈ groups ∧ is_editable g = true ∧
        c = ⟨g.id, g.schedule_id, g.scheduled_date, new_address_id, g.order_type,
          order_id, []⟩ := by
    intro c hc
    rcases date_arg with _ | pd
    · rcases start_arg with _ | ps
      · simp [change_address_tool] at hc
      · rcases end_arg with _ | pe
        · simp [change_address_tool] at hc
        · rcases ps with _ | sv
          · simp [change_address_tool] at hc
          · rcases pe with _ | ev
            · simp [change_address_tool] at hc
            · simp only [change_address_tool] at hc
              exact change_address_range_calls ok authed groups order_id
                new_address_id sv ev types_arg c hc
    · rcases pd with _ | dv
      · simp [change_address_tool] at hc
      · simp only [change_address_tool] at hc
        exact change_address_range_calls ok authed groups order_id new_address_id
          dv dv types_arg c hc
  intro c hc
  obtain ⟨g, hg, he, hcc⟩ := key c hc
  subst hcc
  refine ⟨⟨g, hg, he, rfl, rfl, rfl, rfl, rfl⟩, ?_⟩
  intro g2 hg2 hed2 heq
  have : g = g2 := List.inj_on_of_nodup_map hids hg hg2 heq
  rw [this] at he
  rw [he] at hed2
  cases hed2

theorem change_address_only_address_witness :
    (([sampleG1, sampleG2].map (fun g => g.id)).Nodup) ∧
    (∀ c ∈ (change_address_tool (fun _ => true) true [sampleG1, sampleG2] 7 42
        none (some (some (toOrdinal 2024 1 6))) (some (some (toOrdinal 2024 1 8)))
        none).2,
      (∃ g, g ∈ [sampleG1, sampleG2] ∧ is_editable g = true ∧ c.group_id = g.id ∧
        c.new_date = g.scheduled_date ∧ c.order_type = g.order_type ∧
        c.address_id = 42 ∧ c.notes = []) ∧
      (∀ g2, g2 ∈ [sampleG1, sampleG2] → is_editable g2 = false →
        c.group_id ≠ g2.id)) :=
  ⟨by decide,
    change_address_only_address (fun _ => true) true [sampleG1, sampleG2] 7 42
      none (some (some (toOrdinal 2024 1 6))) (some (some (toOrdinal 2024 1 8)))
      none (by decide)⟩

/-- C8 counterexample: a malformed skip date string makes skip_day raise
ValueError across the tool boundary, an order with zero delivery records
makes skip_day raise ValueError from max(), and an unauthenticated
session makes get_package_orders raise RuntimeError; none of these
failures is encoded in a returned result. -/
theorem tools_raise_counterexample :
    isOkE (skip_day (fun _ => true) true [sampleG1] none "not-a-date" none).1 = false ∧
    isOkE (skip_day (fun _ => true) true ([] : List OrderGroup)
        (some (toOrdinal 2024 1 6)) "2024-01-06" none).1 = false ∧
    isOkE (get_package_orders_tool false []) = false := by decide

/-- C8 amended: the reschedule_delivery and bulk_reschedule tools wrap
their bodies in catch-all exception handlers and hence return a plain
result for every input, failures encoded in the result; the remaining
tools have no handler, and malformed date strings, an order with zero
delivery records, or an unauthenticated session make them raise across
the tool boundary. -/
theorem guarded_tools_always_return (ok : Bool) (okb : OrderGroup → Bool)
    (authed : Bool) (groups : List OrderGroup) (order_id group_id : Nat)
    (pnew : Option Nat) (raw : String) (address_id : Nat) (order_type : String)
    (ps pe pt : Option Nat) (tl : Option (List String)) :
    isOkE (reschedule_delivery_tool ok authed groups order_id group_id pnew raw
        address_id order_type).1 = true ∧
    isOkE (bulk_reschedule_tool okb authed groups ps pe pt raw tl).1 = true := by
  constructor
  · rcases pnew with _ | nd
    · rfl
    · by_cases h1 : isSunday nd = true
      · simp [reschedule_delivery_tool, h1, isOkE]
      · simp only [Bool.not_eq_true] at h1
        by_cases h2 : (["LUNCH", "DINNER"].contains order_type) = true
        · have h2b : order_type = "LUNCH" ∨ order_type = "DINNER" := by simpa using h2
          by_cases h3 : authed = true
          · cases h4 : groups.find? (fun g => g.id == group_id) with
            | none =>
              rcases h2b with rfl | rfl <;>
                simp [reschedule_delivery_tool, h1, h3, h4, isOkE]
            | some tg =>
              rcases h2b with rfl | rfl <;> by_cases h5 : ok = true <;>
                simp [reschedule_delivery_tool, h1, h3, h4, h5, isOkE]
          · simp only [Bool.not_eq_true] at h3
            rcases h2b with rfl | rfl <;>
              simp [reschedule_delivery_tool, h1, h3, isOkE]
        · have h2b : ¬ (order_type = "LUNCH") ∧ ¬ (order_type = "DINNER") := by
            simpa using h2
          simp [reschedule_delivery_tool, h1, h2b.1, h2b.2, isOkE]
  · rcases ps with _ | sv
    · rfl
    · rcases pe with _ | ev
      · rfl
      · rcases pt with _ | tv
        · rfl
        · by_cases h1 : isSunday tv = true
          · simp [bulk_reschedule_tool, h1, isOkE]
          · simp only [Bool.not_eq_true] at h1
            rcases tl with _ | tlist
            · by_cases h3 : authed = true <;>
                simp [bulk_reschedule_tool, bulk_tool_call, h1, h3, isOkE]
            · cases h4 : findInvalidType tlist with
              | none =>
                by_cases h3 : authed = true <;>
                  simp [bulk_reschedule_tool, bulk_tool_call, h1, h3, h4, isOkE]
              | some bad =>
                simp [bulk_reschedule_tool, h1, h4, isOkE]

theorem alookup_set_auth (entries : List (Nat × ClientHandle)) (k : Nat) (b : Bool) :
    alookup (set_auth entries k b) k
      = (alookup entries k).map (fun h => ⟨h.hid, b⟩) := by
  induction entries with
  | nil => rfl
  | cons p rest ih =>
    simp only [set_auth, List.map_cons, alookup]
    by_cases hk : (p.1 == k) = true
    · simp [hk]
    · simp only [hk, Bool.false_eq_true, if_false]
      simpa [set_auth, hk] using ih

/-- A cache hit returns the cached handle and leaves the cache alone. -/
theorem get_client_hit (b : Bool) (creds : Option Credentials) (k : Nat)
    (cache : ClientCache) (h : ClientHandle)
    (hh : alookup cache.entries k = some h) :
    get_client b creds k cache = (h, cache) := by
  simp [get_client, hh]

/-- C9: the first resolve for a session key constructs and caches
exactly one handle, whatever the auto-login outcome was (success,
failure, or skipped for missing credentials); every later resolve with
the same key returns the identical cached handle and leaves the cache
unchanged; and after a failed auto-login a later explicit login still
authenticates the same cached handle. -/
theorem get_client_caches_once (b b2 : Bool) (creds creds2 : Option Credentials)
    (k : Nat) (cache : ClientCache)
    (hfresh : alookup cache.entries k = none) :
    alookup (get_client b creds k cache).2.entries k
        = some (get_client b creds k cache).1 ∧
    (get_client b creds k cache).2.entries.length = cache.entries.length + 1 ∧
    get_client b2 creds2 k (get_client b creds k cache).2 =
      ((get_client b creds k cache).1, (get_client b creds k cache).2) ∧
    (creds = none → (get_client b creds k cache).1.is_authenticated = false) ∧
    (∀ cr, creds = some cr → (get_client b creds k cache).1.is_authenticated = b) ∧
    alookup (login_tool true b2 creds2 k (get_client b creds k cache).2).2.entries k
      = some ⟨(get_client b creds k cache).1.hid, true⟩ := by
  have hmain : alookup (get_client b creds k cache).2.entries k
      = some (get_client b creds k cache).1 := by
    simp only [get_client, hfresh]
    cases creds with
    | none => exact alookup_append_self _ _ _ hfresh
    | some cr => exact alookup_append_self _ _ _ hfresh
  refine ⟨hmain, ?_, ?_, ?_, ?_, ?_⟩
  · simp only [get_client, hfresh]
    cases creds <;> simp
  · exact get_client_hit b2 creds2 k _ _ hmain
  · intro hnone
    subst hnone
    simp [get_client, hfresh]
  · intro cr hcr
    subst hcr
    simp [get_client, hfresh]
  · simp only [login_tool, if_true]
    rw [get_client_hit b2 creds2 k _ _ hmain]
    rw [alookup_set_auth, hmain]
    rfl

theorem get_client_caches_once_witness :
    alookup (⟨0, []⟩ : ClientCache).entries 1 = none ∧
    (alookup (get_client false (some ⟨"u", "p"⟩) 1 ⟨0, []⟩).2.entries 1
        = some (get_client false (some ⟨"u", "p"⟩) 1 ⟨0, []⟩).1 ∧
    (get_client false (some ⟨"u", "p"⟩) 1 ⟨0, []⟩).2.entries.length
        = (⟨0, []⟩ : ClientCache).entries.length + 1 ∧
    get_client true none 1 (get_client false (some ⟨"u", "p"⟩) 1 ⟨0, []⟩).2 =
      ((get_client false (some ⟨"u", "p"⟩) 1 ⟨0, []⟩).1,
        (get_client false (some ⟨"u", "p"⟩) 1 ⟨0, []⟩).2) ∧
    ((some ⟨"u", "p"⟩ : Option Credentials) = none →
      (get_client false (some ⟨"u", "p"⟩) 1 ⟨0, []⟩).1.is_authenticated = false) ∧
    (∀ cr, (some ⟨"u", "p"⟩ : Option Credentials) = some cr →
      (get_client false (some ⟨"u", "p"⟩) 1 ⟨0, []⟩).1.is_authenticated = false) ∧
    alookup (login_tool true true none 1
        (get_client false (some ⟨"u", "p"⟩) 1 ⟨0, []⟩).2).2.entries 1
      = some ⟨(get_client false (some ⟨"u", "p"⟩) 1 ⟨0, []⟩).1.hid, true⟩) :=
  ⟨by decide,
    get_client_caches_once false true (some ⟨"u", "p"⟩) none 1 ⟨0, []⟩ (by decide)⟩

end Warteg
